import Mathlib

/-!
Shallow embedding of `src/server.py`, a FastAPI service that loads a CSV of
student records at startup and serves them, optionally filtered by the
repeated query parameter `class`, as JSON.

The embedding follows the source line by line:
* `Student` / `StudentsResponse` embed the Pydantic models (lines 17-27);
  the internal field is `class_name`, serialized under the JSON alias `class`.
* `ReadCsvResult` / `load_all_students` embed the startup load (lines 30-43):
  `pd.read_csv` either yields the rows, raises `FileNotFoundError`, or raises
  some other exception (unreadable file, malformed CSV); only
  `FileNotFoundError` is caught, any other exception propagates and aborts
  startup, which we model as `none`.
* `students_list_for` / `get_students_data` embed the request handler
  (lines 59-85), including the early return on an empty store (line 66) and
  Python truthiness of the optional list `class_filter` (line 71): both
  `None` and the empty list are falsy.
* `Student.toJson` / `StudentsResponse.toJson` / `Json.render` embed the
  serialization performed by FastAPI on the `response_model`: field order is
  declaration order (`studentId` then the `class` alias), and the response
  object has the single key `students`.
* `serve` threads the module-global record store through a sequence of
  requests; the handler body only reads `ALL_STUDENTS_DATA` (it binds fresh
  local names and builds new lists), so the store component is passed along
  unchanged.
-/

/-- Pydantic model `Student` (server.py lines 17-23): integer field
`studentId` and string field `class_name`, the latter carrying the JSON
alias `class`. -/
structure Student where
  studentId : Int
  class_name : String
deriving DecidableEq, Repr

/-- Pydantic model `StudentsResponse` (server.py lines 26-27): the response
structure with the single field `students`. -/
structure StudentsResponse where
  students : List Student
deriving DecidableEq, Repr

/-- Outcome of the external `pd.read_csv` call at server.py line 32: the
parsed rows in CSV order, a `FileNotFoundError` (file missing), or any other
exception (file unreadable, malformed CSV, ...). -/
inductive ReadCsvResult where
  | ok (rows : List Student)
  | fileNotFound
  | otherError
deriving DecidableEq, Repr

/-- Startup load (server.py lines 30-43). The `try` block stores the parsed
rows in `ALL_STUDENTS_DATA`; the sole `except FileNotFoundError` clause
stores `[]`; any other exception is uncaught, so module import fails and the
process never starts, modelled as `none`. -/
def load_all_students : ReadCsvResult → Option (List Student)
  | ReadCsvResult.ok rows => some rows
  | ReadCsvResult.fileNotFound => some []
  | ReadCsvResult.otherError => none

/-- Body of the handler up to line 77: the early return of `[]` when
`ALL_STUDENTS_DATA` is empty (line 66), then the list-comprehension filter,
guarded by Python truthiness of `class_filter` (None and `[]` are falsy).
`List.contains` is the embedding of the Python `in` test on a list of
strings: exact, case-sensitive string equality against each element. -/
def students_list_for (store : List Student) (class_filter : Option (List String)) :
    List Student :=
  if store.isEmpty then []
  else
    match class_filter with
    | none => store
    | some cf =>
      if cf.isEmpty then store
      else store.filter (fun s => cf.contains s.class_name)

/-- Handler `get_students_data` (server.py lines 59-85): select the records,
rebuild each as a `Student` model (lines 80-83), and wrap them in a
`StudentsResponse` (line 85). -/
def get_students_data (store : List Student) (class_filter : Option (List String)) :
    StudentsResponse :=
  StudentsResponse.mk
    ((students_list_for store class_filter).map
      (fun s => Student.mk s.studentId s.class_name))

/-- JSON values produced by the service: numbers, strings, arrays and objects
with ordered keys. -/
inductive Json where
  | num (n : Int)
  | str (s : String)
  | arr (elems : List Json)
  | obj (fields : List (String × Json))

/-- Serialization of a `Student` model: Pydantic emits the fields in
declaration order and FastAPI serializes the response model by alias, so the
second key is exactly `class` (server.py lines 17-23). -/
def Student.toJson (s : Student) : Json :=
  Json.obj [("studentId", Json.num s.studentId), ("class", Json.str s.class_name)]

/-- Serialization of the response model: one key `students` holding the array
of serialized records (server.py lines 26-27). -/
def StudentsResponse.toJson (r : StudentsResponse) : Json :=
  Json.obj [("students", Json.arr (r.students.map Student.toJson))]

/-- JSON string escaping for the characters that can occur in this service's
string data (backslash and double quote). -/
def escapeJsonChar (c : Char) : String :=
  if c = '\\' then "\\\\" else if c = '"' then "\\\"" else String.singleton c

/-- Escape every character of a string for inclusion in a JSON string
literal. -/
def escapeJsonString (s : String) : String :=
  String.join (s.data.map escapeJsonChar)

mutual

/-- Compact textual rendering of a JSON value, as produced by the JSON
encoder (no whitespace, keys in order). -/
def Json.render : Json → String
  | Json.num n => toString n
  | Json.str s => "\"" ++ escapeJsonString s ++ "\""
  | Json.arr elems => "[" ++ Json.renderElems elems ++ "]"
  | Json.obj fields => "\x7b" ++ Json.renderFields fields ++ "\x7d"

/-- Comma-separated rendering of the elements of a JSON array. -/
def Json.renderElems : List Json → String
  | [] => ""
  | [e] => Json.render e
  | e :: e2 :: es => Json.render e ++ "," ++ Json.renderElems (e2 :: es)

/-- Comma-separated rendering of the key/value pairs of a JSON object. -/
def Json.renderFields : List (String × Json) → String
  | [] => ""
  | [(k, v)] => "\"" ++ escapeJsonString k ++ "\":" ++ Json.render v
  | (k, v) :: f2 :: fs =>
    "\"" ++ escapeJsonString k ++ "\":" ++ Json.render v ++ ","
      ++ Json.renderFields (f2 :: fs)

end

/-- HTTP view of one call to the endpoint `GET /api`: the handler never
raises, so FastAPI answers with its default success status 200 and the
rendered JSON body (server.py line 59, no explicit status_code). -/
def handle_api (store : List Student) (class_filter : Option (List String)) :
    Nat × String :=
  (200, Json.render (StudentsResponse.toJson (get_students_data store class_filter)))

/-- Request loop over the process lifetime: the module global
`ALL_STUDENTS_DATA` is threaded through a sequence of requests. The handler
body only reads the global (the comprehension at lines 73-76 and the model
rebuild at lines 80-83 build fresh lists; no statement assigns to the global
or mutates it in place), so each step passes the store on unchanged. -/
def serve : List Student → List (Option (List String)) →
    List Student × List StudentsResponse
  | store, [] => (store, [])
  | store, req :: reqs =>
    let resp := get_students_data store req
    let rest := serve store reqs
    (rest.1, resp :: rest.2)

/-- Concrete record store of the spec's worked example:
`[(1,"1A"),(2,"1B"),(3,"1A")]`. -/
def exampleStore : List Student :=
  [Student.mk 1 "1A", Student.mk 2 "1B", Student.mk 3 "1A"]

/-! Helper lemmas about the handler. -/

/-- Rebuilding each selected record as a `Student` model (server.py lines
80-83) is the identity, so the response carries exactly the selected list. -/
theorem get_students_data_students (store : List Student) (cf : Option (List String)) :
    (get_students_data store cf).students = students_list_for store cf :=
  List.map_id' _

/-- With no `class` parameter the selected list is the whole store. -/
theorem students_list_for_none (store : List Student) :
    students_list_for store none = store := by
  unfold students_list_for
  split
  · next h => exact (List.isEmpty_iff.mp h).symm
  · rfl

/-- With an empty `class` parameter list (falsy in Python) the selected list
is the whole store. -/
theorem students_list_for_some_nil (store : List Student) :
    students_list_for store (some []) = store := by
  unfold students_list_for
  split
  · next h => exact (List.isEmpty_iff.mp h).symm
  · rfl

/-- With a non-empty `class` parameter list the selected list is the filter
of the store by membership of the record's class in the parameter list. -/
theorem students_list_for_filter (store : List Student) (cf : List String)
    (h : cf ≠ []) :
    students_list_for store (some cf)
      = store.filter (fun s => cf.contains s.class_name) := by
  unfold students_list_for
  split
  · next he => rw [List.isEmpty_iff.mp he, List.filter_nil]
  · next he =>
    have hne : ¬ (cf.isEmpty = true) := by
      simpa [List.isEmpty_iff] using h
    dsimp only
    rw [if_neg hne]

/-- Membership test `in` on the Python list of filter values is Boolean
membership of the class string. -/
theorem contains_eq_mem_class (cf : List String) (s : Student) :
    cf.contains s.class_name = decide (s.class_name ∈ cf) := by
  simp [List.contains, List.elem_eq_mem]

/-- Selected list is always a subsequence of the store. -/
theorem students_list_for_sublist (store : List Student) (cf : Option (List String)) :
    List.Sublist (students_list_for store cf) store := by
  unfold students_list_for
  split
  · exact List.nil_sublist store
  · match cf with
    | none => exact List.Sublist.refl store
    | some l =>
      dsimp only
      split
      · exact List.Sublist.refl store
      · exact List.filter_sublist store

/-! Claim theorems. -/

/-- C1: for every record store and every non-empty filter sequence, the
handler returns exactly the subsequence of records whose class field is
string-equal (case-sensitive, exact match) to at least one value in the
filter sequence, in original record-store order; every store record whose
class matches appears in the result exactly once (its store multiplicity is
preserved). -/
theorem getStudents_nonempty_filter (store : List Student) (cf : List String)
    (h : cf ≠ []) :
    (get_students_data store (some cf)).students
        = store.filter (fun s => decide (s.class_name ∈ cf))
    ∧ (∀ s ∈ (get_students_data store (some cf)).students, s.class_name ∈ cf)
    ∧ (∀ s ∈ store, s.class_name ∈ cf →
        ((get_students_data store (some cf)).students).count s = store.count s) := by
  have hfe : (get_students_data store (some cf)).students
      = store.filter (fun s => decide (s.class_name ∈ cf)) := by
    rw [get_students_data_students, students_list_for_filter store cf h]
    exact List.filter_congr (fun a _ => contains_eq_mem_class cf a)
  refine ⟨hfe, ?_, ?_⟩
  · intro s hs
    rw [hfe] at hs
    simpa using (List.mem_filter.mp hs).2
  · intro s _ hcl
    rw [hfe]
    exact List.count_filter (by simpa using hcl)

/-- C1 witness: the theorem instantiated on the worked example store with
the non-empty filter sequence `["1A"]`. -/
theorem getStudents_nonempty_filter_witness :
    (get_students_data exampleStore (some ["1A"])).students
        = exampleStore.filter (fun s => decide (s.class_name ∈ (["1A"] : List String)))
    ∧ (∀ s ∈ (get_students_data exampleStore (some ["1A"])).students,
        s.class_name ∈ (["1A"] : List String))
    ∧ (∀ s ∈ exampleStore, s.class_name ∈ (["1A"] : List String) →
        ((get_students_data exampleStore (some ["1A"])).students).count s
          = exampleStore.count s) :=
  getStudents_nonempty_filter exampleStore ["1A"] (by decide)

/-- C2: for every record store, a request with no `class` parameter
(`class_filter = None`), or equivalently with an empty filter sequence
(also falsy in Python), returns the full record store in load order. -/
theorem getStudents_no_filter (store : List Student) :
    (get_students_data store none).students = store
    ∧ (get_students_data store (some [])).students = store := by
  constructor
  · rw [get_students_data_students, students_list_for_none]
  · rw [get_students_data_students, students_list_for_some_nil]

/-- C3 counterexample: on a source that exists but is unreadable
(`pd.read_csv` raises an exception other than `FileNotFoundError`, e.g. a
`PermissionError`), the load does not yield an empty record store: the
exception is uncaught, so startup aborts (`none`), refuting the claim's
"missing or unreadable" disjunct. -/
theorem load_unreadable_not_empty_store :
    load_all_students ReadCsvResult.otherError = none
    ∧ load_all_students ReadCsvResult.otherError ≠ some [] := by
  exact ⟨rfl, by decide⟩

/-- C3 amended: if the data source is missing (the read raises
`FileNotFoundError`), the load yields an empty record store, the process
starts, and every request then answers 200 with the JSON body whose sole
key `students` maps to the empty array; errors other than file-not-found
are not caught and abort startup. -/
theorem load_missing_file_serves_empty (cf : Option (List String)) :
    load_all_students ReadCsvResult.fileNotFound = some []
    ∧ (handle_api [] cf).1 = 200
    ∧ (handle_api [] cf).2 = "\x7b\"students\":[]\x7d" :=
  ⟨rfl, rfl, rfl⟩

/-- C4: supplying multiple `class` filter values returns the union of the
per-value match sets (a record is returned iff it is in the store and its
class equals at least one supplied value), ordered by original record-store
position (the result is a subsequence of the store), and the result is
invariant under any permutation of the filter-value list. -/
theorem getStudents_union_perm_invariant (store : List Student) (cf cf2 : List String)
    (h : cf ≠ []) (hperm : cf.Perm cf2) :
    (∀ s, s ∈ (get_students_data store (some cf)).students
        ↔ s ∈ store ∧ ∃ c ∈ cf, s.class_name = c)
    ∧ List.Sublist (get_students_data store (some cf)).students store
    ∧ (get_students_data store (some cf)).students
        = (get_students_data store (some cf2)).students := by
  have hfe : (get_students_data store (some cf)).students
      = store.filter (fun s => decide (s.class_name ∈ cf)) := by
    rw [get_students_data_students, students_list_for_filter store cf h]
    exact List.filter_congr (fun a _ => contains_eq_mem_class cf a)
  have h2 : cf2 ≠ [] := by
    intro hnil
    subst hnil
    exact h hperm.eq_nil
  have hfe2 : (get_students_data store (some cf2)).students
      = store.filter (fun s => decide (s.class_name ∈ cf2)) := by
    rw [get_students_data_students, students_list_for_filter store cf2 h2]
    exact List.filter_congr (fun a _ => contains_eq_mem_class cf2 a)
  refine ⟨?_, ?_, ?_⟩
  · intro s
    rw [hfe, List.mem_filter]
    constructor
    · rintro ⟨hst, hdec⟩
      exact ⟨hst, s.class_name, by simpa using hdec, rfl⟩
    · rintro ⟨hst, c, hc, hcl⟩
      exact ⟨hst, by simp [hcl ▸ hc]⟩
  · rw [hfe]
    exact List.filter_sublist store
  · rw [hfe, hfe2]
    exact List.filter_congr (fun a _ => by
      simp only [decide_eq_decide]
      exact hperm.mem_iff)

/-- C4 witness: the theorem instantiated on the worked example store with
the filter list `["1A", "1B"]` and its transposition. -/
theorem getStudents_union_perm_invariant_witness :
    (∀ s, s ∈ (get_students_data exampleStore (some ["1A", "1B"])).students
        ↔ s ∈ exampleStore ∧ ∃ c ∈ (["1A", "1B"] : List String), s.class_name = c)
    ∧ List.Sublist (get_students_data exampleStore (some ["1A", "1B"])).students
        exampleStore
    ∧ (get_students_data exampleStore (some ["1A", "1B"])).students
        = (get_students_data exampleStore (some ["1B", "1A"])).students :=
  getStudents_union_perm_invariant exampleStore ["1A", "1B"] ["1B", "1A"]
    (by decide) (by decide)

/-- C5: for every record store and filter input, the serialized response is
a JSON object with the single key `students`, whose value is an array of
objects each having exactly the keys `studentId` (a number) and `class` (a
string), in that key order; the external key is `class` even though the
internal field is `class_name`. -/
theorem response_json_shape (store : List Student) (cf : Option (List String)) :
    ∃ elems : List Json,
      StudentsResponse.toJson (get_students_data store cf)
          = Json.obj [("students", Json.arr elems)]
      ∧ ∀ j ∈ elems, ∃ n s,
          j = Json.obj [("studentId", Json.num n), ("class", Json.str s)] := by
  refine ⟨(get_students_data store cf).students.map Student.toJson, rfl, ?_⟩
  intro j hj
  rcases List.mem_map.mp hj with ⟨s, _, rfl⟩
  exact ⟨s.studentId, s.class_name, rfl⟩

/-- C6: the endpoint has no error condition: every filter input yields HTTP
status 200 with a JSON body; a non-empty filter list matching no store
record, and an empty record store, both yield exactly the body whose sole
key `students` maps to the empty array. -/
theorem api_no_error (store : List Student) (cf : Option (List String))
    (l : List String) :
    (handle_api store cf).1 = 200
    ∧ (l ≠ [] → (∀ s ∈ store, s.class_name ∉ l) →
        handle_api store (some l) = (200, "\x7b\"students\":[]\x7d"))
    ∧ handle_api [] cf = (200, "\x7b\"students\":[]\x7d") := by
  refine ⟨rfl, ?_, rfl⟩
  intro hl hnm
  have hsel : students_list_for store (some l) = [] := by
    rw [students_list_for_filter store l hl]
    rw [List.filter_eq_nil_iff]
    intro s hs
    rw [contains_eq_mem_class]
    simpa using hnm s hs
  have hresp : get_students_data store (some l) = StudentsResponse.mk [] := by
    unfold get_students_data
    rw [hsel]
    rfl
  unfold handle_api
  rw [hresp]
  rfl

/-- C6 witness: a filter value matching no record of the worked example
store yields status 200 and the empty students body. -/
theorem api_no_error_witness :
    handle_api exampleStore (some ["2C"]) = (200, "\x7b\"students\":[]\x7d") :=
  (api_no_error exampleStore none ["2C"]).2.1 (by decide) (by decide)

/-- C7: the record store is written exactly once at startup and never
mutated by any request: after serving any sequence of requests, the store
(its records and their order) is unchanged, and every response is the pure
function of the original store and that request's filter input. -/
theorem store_never_mutated (store : List Student) (reqs : List (Option (List String))) :
    (serve store reqs).1 = store
    ∧ (serve store reqs).2 = reqs.map (fun cf => get_students_data store cf) := by
  induction reqs with
  | nil => exact ⟨rfl, rfl⟩
  | cons r rs ih =>
    refine ⟨?_, ?_⟩
    · show (serve store rs).1 = store
      exact ih.1
    · show get_students_data store r :: (serve store rs).2 = _
      rw [ih.2, List.map_cons]

/-- C8: on the concrete store [(1,"1A"),(2,"1B"),(3,"1A")], a request with
no filter returns the three records in order, and a request with filter
class=1A returns records 1 and 3, each rendered exactly as the spec's
example JSON bodies. -/
theorem example_requests :
    handle_api exampleStore none
      = (200, "\x7b\"students\":[\x7b\"studentId\":1,\"class\":\"1A\"\x7d,\x7b\"studentId\":2,\"class\":\"1B\"\x7d,\x7b\"studentId\":3,\"class\":\"1A\"\x7d]\x7d")
    ∧ handle_api exampleStore (some ["1A"])
      = (200, "\x7b\"students\":[\x7b\"studentId\":1,\"class\":\"1A\"\x7d,\x7b\"studentId\":3,\"class\":\"1A\"\x7d]\x7d") := by
  exact ⟨by decide, by decide⟩

/-- C9: duplicate filter values have no effect: the result on a filter list
equals the result on its deduplication, and no record is duplicated in the
output because of repeated filter values (each record's multiplicity in the
output never exceeds its multiplicity in the store). -/
theorem duplicate_filters_no_effect (store : List Student) (cf : List String) :
    (get_students_data store (some cf)).students
        = (get_students_data store (some cf.dedup)).students
    ∧ ∀ s, ((get_students_data store (some cf)).students).count s ≤ store.count s := by
  constructor
  · match cf with
    | [] => rfl
    | c :: cs =>
      have h : (c :: cs) ≠ ([] : List String) := by simp
      have hd : (c :: cs).dedup ≠ ([] : List String) := by
        rw [Ne, List.dedup_eq_nil]
        exact h
      rw [get_students_data_students, get_students_data_students,
        students_list_for_filter store (c :: cs) h,
        students_list_for_filter store (c :: cs).dedup hd]
      refine List.filter_congr (fun a _ => ?_)
      rw [contains_eq_mem_class, contains_eq_mem_class, decide_eq_decide]
      exact List.mem_dedup.symm
  · intro s
    rw [get_students_data_students]
    exact (students_list_for_sublist store (some cf)).count_le s

/-- C10: for every record store and every filter input (including none),
the returned students list is a subsequence of the record store: it
preserves relative store order, each returned record occurs in the store,
and its length never exceeds the store's length. -/
theorem result_is_subsequence (store : List Student) (cf : Option (List String)) :
    List.Sublist (get_students_data store cf).students store
    ∧ (∀ s ∈ (get_students_data store cf).students, s ∈ store)
    ∧ (get_students_data store cf).students.length ≤ store.length := by
  have h : List.Sublist (get_students_data store cf).students store := by
    rw [get_students_data_students]
    exact students_list_for_sublist store cf
  exact ⟨h, fun s hs => h.subset hs, h.length_le⟩
